import Mathlib

/-!
Verification development for the `i-html` custom element (`src/i-html.js`).
The JavaScript source is shallowly embedded: pure helpers (the media-type
regular expressions, attribute parsing, the `Refresh` directive parser,
content negotiation) become Lean functions, and the asynchronous
load/insert lifecycle of `IHTMLElement.#load` becomes an explicit
event-loop machine whose atomic steps are the synchronous blocks between
`await` points of the source.  Host-platform primitives (the `URL` class,
`DOMParser`, `fetch`, `setTimeout`, `AbortController`, `DOMException`) are
not repository code; they are modelled by small faithful stand-ins that
are documented where they appear.
-/

/-- Character class of the JavaScript regex `\s` restricted to the ASCII
whitespace characters (space, tab, line feed, vertical tab, form feed,
carriage return).  Unicode space characters also matched by `\s` are
outside the modelled scope. -/
def jsWs (c : Char) : Bool :=
  c == ' ' || c == '\t' || c == '\n' || c == '\x0b' || c == '\x0c' || c == '\r'

/-- Character class of the JavaScript regex `.` (without the `s` flag):
any character except a line terminator. -/
def jsDot (c : Char) : Bool :=
  !(c == '\n' || c == '\r' || c == '\u2028' || c == '\u2029')

/-- Decide whether a character list matches the regex fragment
`\s*(?:;.*)?$` that ends every media-type pattern in the source
(`src/i-html.js` lines 80-85). -/
def mimeTailOk (r : List Char) : Bool :=
  match r.dropWhile jsWs with
  | [] => true
  | c :: rest => c == ';' && rest.all jsDot

/-- If `pre` is an initial segment of `r`, return the remainder. -/
def listAfter (r pre : List Char) : Option (List Char) :=
  if r.take pre.length = pre then some (r.drop pre.length) else none

/-- Decide whether `r` matches the regex fragment `sub\s*(?:;.*)?$` for a
literal subtype `sub`. -/
def subtypeTail (r sub : List Char) : Bool :=
  match listAfter r sub with
  | some rest => mimeTailOk rest
  | none => false

/-- Shallow embedding of the media-type regexes of `src/i-html.js`
lines 80-84, all of the form `^ty\/([^+]+\+)?sub\s*(?:;.*)?$`.
Returns `none` when the string does not match, and `some g` with the
value of the first capture group (`none` when the optional group did not
participate) when it does.  Since `[^+]+` cannot contain `+`, the group
can only end at the first `+` of the part after `ty/`, so the regex
engine's backtracking search reduces to trying that one split first and
falling back to the group being absent. -/
def famMatch (s ty sub : String) : Option (Option String) :=
  match listAfter s.toList (ty.toList ++ ['/']) with
  | none => none
  | some r =>
    match r.findIdx? (fun c => c == '+') with
    | some i =>
      if 0 < i ∧ subtypeTail (r.drop (i + 1)) sub.toList then
        some (some (String.mk (r.take (i + 1))))
      else if subtypeTail r sub.toList then some none
      else none
    | none => if subtypeTail r sub.toList then some none else none

/-- `textMime = /^text\/([^+]+\+)?plain\s*(?:;.*)?$/` (line 80). -/
def matchText (s : String) : Option (Option String) := famMatch s "text" "plain"

/-- `htmlMime = /^text\/([^+]+\+)?html\s*(?:;.*)?$/` (line 81). -/
def matchHtml (s : String) : Option (Option String) := famMatch s "text" "html"

/-- `svgMime = /^image\/(svg\+)xml\s*(?:;.*)?$/` (line 82); here the group
is mandatory, so the match is `image/svg+` followed by `xml` and the tail. -/
def matchSvg (s : String) : Option (Option String) :=
  match listAfter s.toList "image/".toList with
  | none => none
  | some r =>
    if r.take 4 = "svg+".toList ∧ subtypeTail (r.drop 4) "xml".toList then
      some (some "svg+")
    else none

/-- `xmlMime = /^application\/([^+]+\+)?xml\s*(?:;.*)?$/` (line 83). -/
def matchXml (s : String) : Option (Option String) := famMatch s "application" "xml"

/-- `eventStreamMime = /^text\/([^+]+\+)?event-stream\s*(?:;.*)?$/` (line 84). -/
def eventStreamTest (s : String) : Bool := (famMatch s "text" "event-stream").isSome

/-- `wildcardMime = /^\*\/(?:[^+]+\+)?\*\s*(?:;.*)?$/` (line 85); the inner
group is non-capturing, so only the boolean test is needed. -/
def wildcardTest (s : String) : Bool := (famMatch s "*" "*").isSome

/-- The `accept` getter (`src/i-html.js` lines 161-169): the attribute value
is kept when it matches one of the five media-type patterns, otherwise the
getter falls back to `"text/html"`. -/
def acceptGetter (attr : Option String) : String :=
  let a := attr.getD ""
  if (matchText a).isSome || (matchHtml a).isSome || (matchSvg a).isSome ||
      (matchXml a).isSome || wildcardTest a then a
  else "text/html"

/-- `validAllow` (`src/i-html.js` line 87): the recognised allow-list tokens. -/
def validAllow : List String :=
  ["refresh", "iframe", "i-html", "media", "script", "style", "cross-origin"]

/-- Split a character list at every occurrence of `sep`, the behaviour of
the JavaScript `split(/ /g)` for a single-character separator (consecutive
separators yield empty components). -/
def splitOnChar (sep : Char) : List Char → List (List Char)
  | [] => [[]]
  | c :: r =>
    let rest := splitOnChar sep r
    if c == sep then [] :: rest
    else
      match rest with
      | h :: t => (c :: h) :: t
      | [] => [[c]]

/-- The `allow` branch of `attributeChangedCallback` (`src/i-html.js`
lines 226-228): `new Set(String(value).split(/ /g).filter(allow =>
validAllow.has(allow)))`.  The JavaScript `Set` is modelled as the filtered
list; membership in the list is the `has` of the set. -/
def parseAllow (value : String) : List String :=
  ((splitOnChar ' ' value.toList).map String.mk).filter (fun t => decide (t ∈ validAllow))

/-- The `allow` property setter (`src/i-html.js` lines 134-138).  The
`setAttribute` on line 135 synchronously reenters
`attributeChangedCallback`, which sets the token cache to
`parseAllow value`; the setter then overwrites the cache with the
`*`-expanded parse, which is therefore the final value. -/
def setAllow (value : String) : List String :=
  let value2 := if value = "*" then String.intercalate " " validAllow else value
  parseAllow value2

/-- Value of a nonempty decimal digit string, `none` otherwise. -/
def parseDigits (l : List Char) : Option Nat :=
  if l ≠ [] ∧ l.all Char.isDigit then
    some (l.foldl (fun a c => a * 10 + (c.toNat - 48)) 0)
  else none

/-- Model of the JavaScript `Number(...)` coercion restricted to
integer-valued decimal strings: an optionally `-`-signed digit string
yields its value, the empty (or all-whitespace) string yields `0`, and
every other string is treated as `NaN` (`none`).  Fractional,
exponential, hexadecimal and `+`-signed forms are outside the modelled
scope; the claims under verification only exercise integer delays. -/
def jsNumberInt (s : String) : Option Int :=
  let t := ((s.toList.dropWhile jsWs).reverse.dropWhile jsWs).reverse
  match t with
  | [] => some 0
  | '-' :: rest => (parseDigits rest).map (fun n => -(n : Int))
  | _ => (parseDigits t).map (fun n => (n : Int))

/-- Length of a match of the separator regex `;\s*url=` at the head of
`r`, if any (used by `#setupRefresh`, `src/i-html.js` line 263).  The
`\s*` is greedy and `url=` must follow the maximal run of whitespace;
a shorter run would put a whitespace character where `u` is required. -/
def refreshSepAt (r : List Char) : Option Nat :=
  match r with
  | ';' :: rest =>
    let wsLen := (rest.takeWhile jsWs).length
    if (rest.drop wsLen).take 4 = "url=".toList then some (1 + wsLen + 4) else none
  | _ => none

/-- Position and length of the first match of `;\s*url=` in `l`. -/
def findRefreshSep : List Char → Option (Nat × Nat)
  | [] => none
  | c :: rest =>
    match refreshSepAt (c :: rest) with
    | some n => some (0, n)
    | none => (findRefreshSep rest).map (fun p => (p.1 + 1, p.2))

/-- The destructuring `let [time, url] = String(refresh).split(/;\s*url=/)`
of `src/i-html.js` line 263: only the first two components of the split
are used, so the model splits at the first separator and truncates the
remainder at the second separator (exactly what `split` places in the
second array slot). -/
def refreshSplitTwo (s : String) : String × Option String :=
  let l := s.toList
  match findRefreshSep l with
  | none => (s, none)
  | some (i, n) =>
    let rest := l.drop (i + n)
    let second :=
      match findRefreshSep rest with
      | none => rest
      | some (j, _) => rest.take j
    (String.mk (l.take i), some (String.mk second))

/-- `Number.MAX_SAFE_INTEGER`. -/
def maxSafeInteger : Int := 9007199254740991

/-- Result of one `#setupRefresh` call: whether `clearTimeout` was reached,
and the scheduled timer (delay in milliseconds paired with the optional
follow-up URL handed to `#load`), if one was set. -/
structure RefreshOutcome where
  cleared : Bool
  scheduled : Option (Int × Option String)
deriving DecidableEq

/-- Shallow embedding of `#setupRefresh` (`src/i-html.js` lines 261-269).
Returns early when the `refresh` allow-token is absent; otherwise always
clears the pending timer and schedules `#load(url)` after
`Number(time) * 1000` milliseconds when `-1 < time < Number.MAX_SAFE_INTEGER`
(a `NaN` time fails both comparisons). -/
def setupRefresh (allow : List String) (refresh : String) : RefreshOutcome :=
  if "refresh" ∉ allow then ⟨false, none⟩
  else
    let p := refreshSplitTwo refresh
    let timeVal : Option Int := if p.1 = "" then some (-1) else jsNumberInt p.1
    match timeVal with
    | none => ⟨true, none⟩
    | some t =>
      if (-1 : Int) < t ∧ t < maxSafeInteger then ⟨true, some (t * 1000, p.2)⟩
      else ⟨true, none⟩

/-- The content-type side of the negotiation in `#loadOnce`
(`src/i-html.js` line 362): the capture group of the first of
`htmlMime`, `textMime`, `xmlMime`, `svgMime` that matches `ct`. -/
def ctParts (ct : String) : Option String :=
  match matchHtml ct with
  | some g => g
  | none =>
    match matchText ct with
    | some g => g
    | none =>
      match matchXml ct with
      | some g => g
      | none =>
        match matchSvg ct with
        | some g => g
        | none => none

/-- The accept side of the negotiation (`src/i-html.js` line 363): note
that `textMime` is not consulted for the accept value. -/
def acceptParts (accept : String) : Option String :=
  match matchHtml accept with
  | some g => g
  | none =>
    match matchXml accept with
    | some g => g
    | none =>
      match matchSvg accept with
      | some g => g
      | none => none

/-- The parse-mode resolution of `#loadOnce` (`src/i-html.js` line 369). -/
def resolvedCt (ct : String) : Option String :=
  if (matchHtml ct).isSome then some "text/html"
  else if (matchText ct).isSome then some "text/plain"
  else if (matchXml ct).isSome then some "application/xml"
  else if (matchSvg ct).isSome then some "image/svg+xml"
  else none

/-- Outcome of the negotiation section of `#loadOnce`
(`src/i-html.js` lines 359-372). -/
inductive Negotiation where
  | mismatch (accept ct : String)
  | unrecognized (ct : String)
  | proceed (resolved : String)
deriving DecidableEq

/-- Shallow embedding of `#loadOnce`'s negotiation: unless the accept value
is a wildcard pattern, throw when `ctParts` is a (truthy, hence nonempty)
capture that differs from `acceptParts` under `!==` (an absent
`acceptParts` is `undefined` and differs from every string); then resolve
the parse mode, throwing when the content type matches none of the four
families. -/
def negotiate (accept ct : String) : Negotiation :=
  if wildcardTest accept = false ∧
      (match ctParts ct with
       | some p => decide (acceptParts accept ≠ some p)
       | none => false) = true then
    Negotiation.mismatch accept ct
  else
    match resolvedCt ct with
    | some r => Negotiation.proceed r
    | none => Negotiation.unrecognized ct

/-- Index of the first occurrence of `://` in a character list. -/
def findSchemeSep : List Char → Option Nat
  | ':' :: '/' :: '/' :: _ => some 0
  | _ :: rest => (findSchemeSep rest).map (· + 1)
  | [] => none

/-- Origin (scheme plus authority) of an absolute URL string: everything up
to the first `/` after the `://`.  This models the host `URL.origin`
accessor for the simple `scheme://host[:port]/path` URLs exercised here;
the `URL` class is a platform primitive, not repository code. -/
def urlOrigin (s : String) : String :=
  match findSchemeSep s.toList with
  | none => ""
  | some i =>
    String.mk ((s.toList.take i) ++ "://".toList ++
      ((s.toList.drop (i + 3)).takeWhile (fun c => c != '/')))

/-- Whether a URL string is absolute (contains `://`). -/
def isAbsoluteUrl (s : String) : Bool := (findSchemeSep s.toList).isSome

/-- Model of `new URL(ref, base).toString()` for the URL shapes exercised by
the element: an absolute `ref` stands alone, a root-relative `ref`
(leading `/`) is resolved against the base's origin, and an empty `ref`
resolves to the base itself (the behaviour the `src` getter relies on,
`src/i-html.js` line 93).  Other relative forms are outside the modelled
scope. -/
def resolveUrl (ref base : String) : String :=
  if isAbsoluteUrl ref then ref
  else
    match ref.toList with
    | '/' :: _ => urlOrigin base ++ ref
    | _ => base

/-- Abort reasons and thrown values that flow through the load routine.
`abortException` models the `AbortError` `DOMException` produced by
`AbortController.abort()` with no argument; its legacy `code` is
`DOMException.ABORT_ERR = 20`.  `jsStr` models a plain string passed as an
abort reason (`abort('stop')`, `abort('disconnected')`), and `jsError`
models an `Error` object; neither has a `code` property, so reading
`.code` on them yields `undefined`. -/
inductive JsVal where
  | undefined
  | jsStr (s : String)
  | jsError (msg : String)
  | abortException
deriving DecidableEq

/-- The `code` property read by `#loadOnce`'s catch clause
(`src/i-html.js` line 351); `none` models `undefined`. -/
def jsCode : JsVal → Option Nat
  | JsVal.abortException => some 20
  | _ => none

/-- The catch clause of `#loadOnce` (`src/i-html.js` lines 350-353):
`if (e.code == DOMException.ABORT_ERR) return` swallows the rejection
(result `none`), anything else is rethrown (result `some e`). -/
def loadOnceRejectErr (reason : JsVal) : Option JsVal :=
  if jsCode reason = some 20 then none else some reason

/-- One `AbortController`: the `src` expando set by `#load`
(`src/i-html.js` line 282), the signal's aborted flag, and the abort
reason (the first abort wins; later aborts are no-ops, as for the host
`AbortController`). -/
structure Controller where
  srcTag : Option String
  aborted : Bool
  reason : JsVal
deriving DecidableEq

/-- A freshly constructed `AbortController`. -/
def Controller.fresh : Controller :=
  { srcTag := none, aborted := false, reason := JsVal.undefined }

/-- `abort(r)` on a controller. -/
def Controller.abortWith (c : Controller) (r : JsVal) : Controller :=
  if c.aborted then c else { c with aborted := true, reason := r }

/-- A node held in the element's child list: either the inert `span`
wrapping a `text/plain` body built by `#parseAndInject`
(`src/i-html.js` lines 378-383), or an opaque node extracted from a
parsed markup document. -/
inductive DomNode where
  | textSpan (text : String)
  | fromDoc (id : String)
deriving DecidableEq

/-- The `insert` getter (`src/i-html.js` lines 140-145). -/
def insertGetter (attr : Option String) : String :=
  if attr = some "append" then "append"
  else if attr = some "prepend" then "prepend"
  else "replace"

/-- Application of the insertion mode (`src/i-html.js` lines 395-401). -/
def applyInsert (mode : String) (old new2 : List DomNode) : List DomNode :=
  if mode = "append" then old ++ new2
  else if mode = "prepend" then new2 ++ old
  else new2

/-- `states.add` of the `StateSet` polyfill: adding an element already
present leaves the set unchanged (`Set` semantics, insertion order kept). -/
def stAdd (l : List String) (s : String) : List String :=
  if s ∈ l then l else l ++ [s]

/-- `states.delete` of the `StateSet` polyfill. -/
def stDel (l : List String) (s : String) : List String :=
  l.filter (fun t => decide (t ≠ s))

/-- The per-element state relevant to the load lifecycle: the internal
state-tag set, every `AbortController` the element has created (indexed by
position; `cur` is `this.#fetchController`), the child list, the
reflected attributes, the cached allow-token set, and the pending refresh
timer (delay in milliseconds and follow-up URL). -/
structure Elem where
  states : List String
  ctrls : List Controller
  cur : Nat
  children : List DomNode
  srcAttr : Option String
  acceptAttr : Option String
  insertAttr : Option String
  allowSet : List String
  refreshTimer : Option (Int × Option String)
deriving DecidableEq

/-- `this.#fetchController`. -/
def currentCtrl (e : Elem) : Controller :=
  (e.ctrls.get? e.cur).getD Controller.fresh

/-- The element as the constructor leaves it (`src/i-html.js`
lines 200-211): state tag `waiting`, one fresh controller, no children. -/
def mkElem (src accept insert : Option String) (allow : List String) : Elem :=
  { states := ["waiting"], ctrls := [Controller.fresh], cur := 0, children := [],
    srcAttr := src, acceptAttr := accept, insertAttr := insert, allowSet := allow,
    refreshTimer := none }

/-- How the synchronous prologue of `#load` (`src/i-html.js`
lines 271-289) exits. -/
inductive ProKind where
  | noSrc
  | policy
  | dedup
  | go
deriving DecidableEq

/-- The effective URL of a `#load(src)` call (`src/i-html.js` line 273):
`new URL(src || this.src, this.src || window.location.href)`, where the
`src` getter is `new URL(this.getAttribute('src') || '', window.location.href)`
and therefore always a nonempty (truthy) string. -/
def resolvedLoadUrl (e : Elem) (explicit : Option String) (pageHref : String) : String :=
  let thisSrc := resolveUrl (e.srcAttr.getD "") pageHref
  resolveUrl (if explicit.getD "" = "" then thisSrc else explicit.getD "") thisSrc

/-- The element after the prologue of `#load` decides to proceed
(`src/i-html.js` lines 279-285): pending refresh timer cleared, current
controller aborted (argument-less, so with an `AbortError`), a fresh
controller with its `src` expando installed as current, and the state
tags updated by deleting `error` and `waiting` and adding `loading`. -/
def proGoElem (e : Elem) (url : String) : Elem :=
  { e with
    refreshTimer := none,
    ctrls := e.ctrls.set e.cur
        (Controller.abortWith (currentCtrl e) JsVal.abortException) ++
      [{ srcTag := some url, aborted := false, reason := JsVal.undefined }],
    cur := e.ctrls.length,
    states := stAdd (stDel (stDel e.states "error") "waiting") "loading" }

/-- Shallow embedding of the synchronous prologue of `#load`
(`src/i-html.js` lines 271-289), up to the first `await`:
return when neither an explicit URL nor a `src` attribute is present;
resolve the effective URL; throw when it is cross-origin and the
`cross-origin` allow-token is absent; return when the current controller
is not aborted and its `src` expando equals the resolved URL
(de-duplication); otherwise clear the refresh timer, abort and replace
the controller, and move the state tags to `loading`. -/
def loadPrologue (e : Elem) (explicit : Option String) (pageHref : String) :
    ProKind × Elem × String :=
  if explicit.getD "" = "" ∧ e.srcAttr = none then (ProKind.noSrc, e, "")
  else if "cross-origin" ∉ e.allowSet ∧
      urlOrigin (resolvedLoadUrl e explicit pageHref) ≠ urlOrigin pageHref then
    (ProKind.policy, e, resolvedLoadUrl e explicit pageHref)
  else if (currentCtrl e).aborted = false ∧
      (currentCtrl e).srcTag = some (resolvedLoadUrl e explicit pageHref) then
    (ProKind.dedup, e, resolvedLoadUrl e explicit pageHref)
  else (ProKind.go, proGoElem e (resolvedLoadUrl e explicit pageHref),
    resolvedLoadUrl e explicit pageHref)

/-- A pending continuation of a load attempt, identified by the attempt
number assigned when its prologue ran:
`atB` is the attempt suspended at the first `await queueATask()`
(`src/i-html.js` line 289) about to enter `#loadOnce`;
`inFetch` is an issued network request, remembering which controller's
signal it was given (read from `this.#fetchController` at `#loadOnce`
entry, line 346);
`atF` is the attempt suspended at the second `await queueATask()` inside
`finally` (line 311), about to run the terminal state update, carrying the
caught error (if any);
`streamOpaque` marks an attempt that branched into `#stream`, whose
long-lived connection is not modelled by this machine. -/
inductive Pend where
  | atB (att : Nat) (url : String)
  | inFetch (att : Nat) (url : String) (sig : Nat)
  | atF (att : Nat) (err : Option JsVal)
  | streamOpaque (att : Nat)
deriving DecidableEq

/-- Externally visible actions of the element, in order of occurrence:
network requests issued, controllers freshly aborted, DOM insertions
(attributed to the attempt whose continuation performed them), events
dispatched on the element, and rejections of the internal `#load` promise
that no caller awaits. -/
inductive Act where
  | fetchIssued (att : Nat) (url : String) (sig : Nat)
  | ctrlAborted (sig : Nat) (reason : JsVal)
  | domInsert (att : Nat) (kids : List DomNode)
  | dispatched (att : Nat) (ev : String)
  | asyncRejected (reason : JsVal)
deriving DecidableEq

/-- A completed network response as consumed by `#loadOnce`: the
`Content-Type` and `Refresh` headers (`headers.get(...) || ''`), the body
text, and — standing in for the host `DOMParser` and `querySelector`
calls — the `content` of the parsed document's refresh `meta` element
(`'' ` when absent) and the sanitized node list selected by the `target`
selector. -/
structure Resp where
  ct : String
  refreshHdr : String
  body : String
  metaRefresh : String
  selected : List DomNode
deriving DecidableEq

/-- The whole event-loop machine for one element: the page URL, the
element state, the queue of pending attempt continuations, the action
log, and the next attempt number. -/
structure Machine where
  pageHref : String
  elem : Elem
  pend : List Pend
  log : List Act
  nextAtt : Nat
deriving DecidableEq

/-- A machine for a freshly constructed, connected element. -/
def mkMachine (href : String) (src accept insert : Option String)
    (allow : List String) : Machine :=
  { pageHref := href, elem := mkElem src accept insert allow, pend := [],
    log := [], nextAtt := 1 }

/-- Abort controller `i` of the element with reason `r`; the boolean
records whether the abort was fresh (the host fires nothing on an
already-aborted controller). -/
def abortCtrl (e : Elem) (i : Nat) (r : JsVal) : Elem × Bool :=
  match e.ctrls.get? i with
  | some c =>
    if c.aborted then (e, false)
    else ({ e with ctrls := e.ctrls.set i { c with aborted := true, reason := r } }, true)
  | none => (e, false)

/-- A trigger of `#load(src)` (attribute change, `connectedCallback`, the
`--load` command, a link/form interception): runs the synchronous
prologue.  A `noSrc` or `dedup` exit changes nothing; a `policy` exit is
the `throw` of `src/i-html.js` line 276, which happens before the
`try`/`finally`, so it only rejects the un-awaited `#load` promise; a
`go` exit installs the updated element and enqueues the attempt's next
continuation behind a macrotask. -/
def machineTrigger (m : Machine) (explicit : Option String) : Machine :=
  match loadPrologue m.elem explicit m.pageHref with
  | (ProKind.noSrc, _, _) => m
  | (ProKind.dedup, _, _) => m
  | (ProKind.policy, _, url) =>
    { m with log := m.log ++ [Act.asyncRejected (JsVal.jsError
        ("i-html failed to load cross origin resource " ++ url ++
          " without allow=cross-origin"))] }
  | (ProKind.go, e2, url) =>
    { m with elem := e2,
             pend := m.pend ++ [Pend.atB m.nextAtt url],
             log := m.log ++
               (if (currentCtrl m.elem).aborted then []
                else [Act.ctrlAborted m.elem.cur JsVal.abortException]),
             nextAtt := m.nextAtt + 1 }

/-- `setAttribute('src', v)` on a connected element with the default
(`eager`) loading policy: `attributeChangedCallback` immediately calls
`#load()` with no argument (`src/i-html.js` lines 213-216). -/
def machineSetSrc (m : Machine) (v : String) : Machine :=
  machineTrigger { m with elem := { m.elem with srcAttr := some v } } none

/-- The shared tail of `#load`'s `finally` clause (`src/i-html.js`
lines 306-311) once `#loadOnce` has returned or thrown: abort
`this.#fetchController` — the controller that is current NOW, not
necessarily the attempt's own — then suspend at `await queueATask()`,
leaving the attempt at its terminal continuation. -/
def machineAfterLoadOnce (m : Machine) (i att : Nat) (err : Option JsVal) : Machine :=
  let ab := abortCtrl m.elem m.elem.cur JsVal.abortException
  { m with elem := ab.1,
           pend := m.pend.set i (Pend.atF att err),
           log := m.log ++
             (if ab.2 then [Act.ctrlAborted m.elem.cur JsVal.abortException] else []) }

/-- A fetch rejection flowing through `#loadOnce`'s catch clause and then
`#load`'s `finally`. -/
def machineFetchRejected (m : Machine) (i att : Nat) (reason : JsVal) : Machine :=
  machineAfterLoadOnce m i att (loadOnceRejectErr reason)

/-- Resumption of an attempt at `atB` (`src/i-html.js` lines 290-303): the
request is built (the `RequestEvent` is constructed but never
dispatched); if the negotiated accept value matches the event-stream
pattern the attempt enters `#stream` (opaque here); otherwise `#loadOnce`
reads the signal of the CURRENT controller and calls `fetch` — which
rejects immediately with the abort reason when that signal is already
aborted, and otherwise puts the request on the network. -/
def machineRunB (m : Machine) (i att : Nat) (url : String) : Machine :=
  if eventStreamTest (acceptGetter m.elem.acceptAttr) then
    { m with pend := m.pend.set i (Pend.streamOpaque att) }
  else
    let c := currentCtrl m.elem
    if c.aborted then machineFetchRejected m i att c.reason
    else
      { m with pend := m.pend.set i (Pend.inFetch att url m.elem.cur),
               log := m.log ++ [Act.fetchIssued att url m.elem.cur] }

/-- One `#setupRefresh` call applied to the element's timer field. -/
def applyRefresh (e : Elem) (hdr : String) : Elem :=
  let r := setupRefresh e.allowSet hdr
  if r.cleared then { e with refreshTimer := r.scheduled } else e

/-- Shallow embedding of `#parseAndInject` (`src/i-html.js`
lines 376-407), with the host `DOMParser`/`querySelectorAll` results
supplied by the response model and the `beforeinsert` event uncancelled
(no listener is installed in the modelled scenarios): a `text/plain` body
is wrapped in one inert span; a markup body first feeds the embedded
meta-refresh directive (or `''`) to `#setupRefresh`, then yields the
selected sanitized nodes.  An empty node list inserts nothing; otherwise
the insertion mode is applied to the child list.  The returned option
carries the inserted nodes. -/
def parseAndInject (e : Elem) (r : Resp) (rct : String) : Elem × Option (List DomNode) :=
  if rct = "text/plain" then
    let kids := [DomNode.textSpan r.body]
    ({ e with children := applyInsert (insertGetter e.insertAttr) e.children kids },
      some kids)
  else
    let e1 := applyRefresh e r.metaRefresh
    if r.selected.length = 0 then (e1, none)
    else
      ({ e1 with children := applyInsert (insertGetter e1.insertAttr) e1.children r.selected },
        some r.selected)

/-- Settlement of an in-flight fetch (`src/i-html.js` lines 345-374).  If
the signal the fetch was given is aborted by now, the fetch rejects with
the stored abort reason; a transport failure rejects with a `TypeError`;
both flow through the catch clause.  A response runs `#setupRefresh` on
the `Refresh` header, then negotiation, then `#parseAndInject`
(`await response.text()` is folded into the settlement), and finally
`#load`'s `finally` clause. -/
def machineSettle (m : Machine) (i : Nat) (r : Option Resp) : Machine :=
  match m.pend.get? i with
  | some (Pend.inFetch att _ sig) =>
    match m.elem.ctrls.get? sig with
    | some c =>
      if c.aborted then machineFetchRejected m i att c.reason
      else
        match r with
        | none => machineFetchRejected m i att (JsVal.jsError "Failed to fetch")
        | some resp =>
          let e1 := applyRefresh m.elem resp.refreshHdr
          match negotiate (acceptGetter e1.acceptAttr) resp.ct with
          | Negotiation.mismatch a c2 =>
            machineAfterLoadOnce { m with elem := e1 } i att
              (some (JsVal.jsError ("Failed to load resource: expected " ++ a ++
                " but was " ++ c2)))
          | Negotiation.unrecognized c2 =>
            machineAfterLoadOnce { m with elem := e1 } i att
              (some (JsVal.jsError ("Failed to load resource: unexpected mime " ++ c2)))
          | Negotiation.proceed rct =>
            let pr := parseAndInject e1 resp rct
            machineAfterLoadOnce
              { m with elem := pr.1,
                       log := m.log ++ ((pr.2.map (fun k => Act.domInsert att k)).toList) }
              i att none
    | none => m
  | _ => m

/-- Resumption of an attempt at `atF` (`src/i-html.js` lines 312-317): the
state tags drop `loading` and `streaming` and gain `loaded` or `error`,
then the `load`-or-`error` event and the `loadend` event are dispatched
(the final rethrow only rejects the un-awaited promise). -/
def machineRunF (m : Machine) (i att : Nat) (err : Option JsVal) : Machine :=
  { m with
    elem := { m.elem with
      states := stAdd (stDel (stDel m.elem.states "loading") "streaming")
        (if err.isSome then "error" else "loaded") },
    pend := m.pend.eraseIdx i,
    log := m.log ++ [Act.dispatched att (if err.isSome then "error" else "load"),
      Act.dispatched att "loadend"] ++
      (match err with
       | some r => [Act.asyncRejected r]
       | none => []) }

/-- The `--stop` command branch of `handleEvent` (`src/i-html.js`
lines 245-248): clear the refresh timer and abort the current controller
with the string reason `'stop'`. -/
def machineStop (m : Machine) : Machine :=
  let e1 := { m.elem with refreshTimer := none }
  let ab := abortCtrl e1 m.elem.cur (JsVal.jsStr "stop")
  { m with elem := ab.1,
           log := m.log ++
             (if ab.2 then [Act.ctrlAborted m.elem.cur (JsVal.jsStr "stop")] else []) }

/-- One scheduling decision of the environment: set the `src` attribute,
fire a bare trigger (`--load`, `connectedCallback`), run a queued
continuation, settle an in-flight fetch with a response (`none` is a
transport failure), or deliver the `--stop` command. -/
inductive Cmd where
  | setSrc (v : String)
  | trig (explicit : Option String)
  | runTask (i : Nat)
  | settle (i : Nat) (r : Option Resp)
  | stop
deriving DecidableEq

/-- Execute one command; commands naming no pending task are no-ops. -/
def step (m : Machine) : Cmd → Machine
  | Cmd.setSrc v => machineSetSrc m v
  | Cmd.trig ex => machineTrigger m ex
  | Cmd.runTask i =>
    match m.pend.get? i with
    | some (Pend.atB att url) => machineRunB m i att url
    | some (Pend.atF att err) => machineRunF m i att err
    | _ => m
  | Cmd.settle i r => machineSettle m i r
  | Cmd.stop => machineStop m

/-- Run the machine through a list of scheduling decisions. -/
def run (m : Machine) (cs : List Cmd) : Machine := cs.foldl step m

/-- Identifiers visible inside the `message` listener that `#stream`
installs (`src/i-html.js` lines 327-330): the listener parameter `e`, the
closure bindings of `#stream` (`open`, `source`, `request`), `this`, and
the module-level bindings of `src/i-html.js`.  No binding named `message`
exists anywhere in the module, and reading an undeclared identifier in a
module (strict-mode code) raises a `ReferenceError`. -/
def streamHandlerScope : List String :=
  ["e", "open", "source", "request", "this",
   "StateSet", "queueATask", "styles", "RequestEvent", "InsertEvent",
   "handleLinkTargets", "textMime", "htmlMime", "svgMime", "xmlMime",
   "eventStreamMime", "wildcardMime", "validAllow", "IHTMLElement",
   "customElements", "document", "window"]

/-- What one delivery of a server-sent message produces. -/
inductive StreamMsgResult where
  | ignored
  | refError (ident : String)
  | injected (payload mime : String)
deriving DecidableEq

/-- Shallow embedding of the `message` listener of `#stream`
(`src/i-html.js` lines 327-330): `if (!open) return;
this.#parseAndInject(message.data, 'text/html')`.  The guard returns while
the connection is not confirmed open; past the guard, the handler
evaluates `message.data`, whose base `message` is resolved against the
scope — the branch that would hand the payload to `#parseAndInject` is
reachable only if `message` resolves. -/
def streamMessageHandler (isOpen : Bool) (eData : String) : StreamMsgResult :=
  if isOpen = false then StreamMsgResult.ignored
  else if "message" ∈ streamHandlerScope then StreamMsgResult.injected eData "text/html"
  else StreamMsgResult.refError "message"

/-- Modelled from the spec: the intended behaviour of the streaming-mode
message handler, which `src/i-html.js` does not implement because of the
out-of-scope identifier (spec §4.4 and the design note in §9: on each
inbound message while the connection is confirmed open, the payload is
run through the parse/sanitize/insert pipeline as `text/html`). -/
def intendedStreamMessage (isOpen : Bool) (payload : String) : Option (String × String) :=
  if isOpen then some (payload, "text/html") else none

/-- The four mutually-exclusive transient state tags; `loaded` is handled
separately because `src/i-html.js` never deletes it. -/
def exclusiveTags : List String := ["waiting", "loading", "streaming", "error"]

/-- Number of occurrences of the transient tags in a state list. -/
def tagCount (l : List String) : Nat :=
  (l.filter (fun s => decide (s ∈ exclusiveTags))).length

/-- The state-tag lists reachable in the one-shot load lifecycle. -/
def reachableStates : List (List String) :=
  [["waiting"], ["loading"], ["loaded"], ["error"],
   ["loaded", "loading"], ["loaded", "error"], ["error", "loaded"]]

/-- Invariant of the load machine: the state-tag list is one of the
reachable shapes, and the initial `waiting` tag can only be present while
no attempt continuation is pending. -/
def MInv (m : Machine) : Prop :=
  m.elem.states ∈ reachableStates ∧ ("waiting" ∈ m.elem.states → m.pend = [])

/-- A same-origin `text/html` response whose parsed document selects one
node. -/
def respA : Resp :=
  { ct := "text/html", refreshHdr := "", body := "", metaRefresh := "",
    selected := [DomNode.fromDoc "A"] }

/-- Two loads to distinct URLs triggered back-to-back in one task (two
`src` assignments), then the real event-loop order: the two
`queueATask` macrotasks resume attempt 1 and attempt 2 (each issuing its
fetch), attempt 1's response for `/a` arrives first, attempt 2's fetch
settles (it was aborted by attempt 1's `finally`), then the two terminal
continuations run in queue order. -/
def c1Trace : Machine :=
  run (mkMachine "http://p/" none none none [])
    [Cmd.setSrc "http://p/a", Cmd.setSrc "http://p/b",
     Cmd.runTask 0, Cmd.runTask 1,
     Cmd.settle 0 (some respA), Cmd.settle 1 none,
     Cmd.runTask 0, Cmd.runTask 0]

/-- One load of `/a` run to completion, then a second load triggered to
`/b`: the trace for the state-tag exclusivity counterexample. -/
def c3Trace : Machine :=
  run (mkMachine "http://p/" none none none [])
    [Cmd.setSrc "http://p/a", Cmd.runTask 0, Cmd.settle 0 (some respA),
     Cmd.runTask 0, Cmd.setSrc "http://p/b"]

/-- A load of `/a` interrupted by the `--stop` command while its fetch is
in flight. -/
def c6Trace : Machine :=
  run (mkMachine "http://p/" none none none [])
    [Cmd.setSrc "http://p/a", Cmd.runTask 0, Cmd.stop,
     Cmd.settle 0 none, Cmd.runTask 0]

/-- A response carrying `Refresh: 2; url=/next`, markup body with no
embedded meta-refresh directive. -/
def respRefreshHtml : Resp :=
  { ct := "text/html", refreshHdr := "2; url=/next", body := "",
    metaRefresh := "", selected := [DomNode.fromDoc "R"] }

/-- The same `Refresh` header on a `text/plain` response. -/
def respRefreshPlain : Resp :=
  { ct := "text/plain", refreshHdr := "2; url=/next", body := "x",
    metaRefresh := "", selected := [] }

/-- A complete load of a `text/html` response with the `Refresh` header,
on an element with `allow="refresh"`. -/
def c9HtmlTrace : Machine :=
  run (mkMachine "http://p/" none none none ["refresh"])
    [Cmd.setSrc "http://p/a", Cmd.runTask 0,
     Cmd.settle 0 (some respRefreshHtml), Cmd.runTask 0]

/-- The same load when the response is `text/plain` (no meta-refresh pass
runs). -/
def c9PlainTrace : Machine :=
  run (mkMachine "http://p/" none none none ["refresh"])
    [Cmd.setSrc "http://p/a", Cmd.runTask 0,
     Cmd.settle 0 (some respRefreshPlain), Cmd.runTask 0]

/-- A response with `Content-Type: text/plain` and body `Hello`. -/
def respPlainHello : Resp :=
  { ct := "text/plain", refreshHdr := "", body := "Hello", metaRefresh := "",
    selected := [] }

/-- A complete load, on an element with `accept="text/html"`, of
`respPlainHello`. -/
def c2Trace : Machine :=
  run (mkMachine "http://p/" none (some "text/html") none [])
    [Cmd.setSrc "http://p/a", Cmd.runTask 0,
     Cmd.settle 0 (some respPlainHello), Cmd.runTask 0]

/-- A cross-origin `src` assignment on an element whose allow set lacks
`cross-origin`. -/
def c4Trace : Machine :=
  run (mkMachine "http://p/" none none none []) [Cmd.setSrc "http://x/r"]

/-- An element with a non-cancelled in-flight attempt for `/a` (its
prologue has run; its fetch need not have been issued yet). -/
def c5Machine : Machine :=
  run (mkMachine "http://p/" none none none []) [Cmd.setSrc "http://p/a"]

lemma mem_stAdd (a b : String) (l : List String) : a ∈ stAdd l b ↔ a ∈ l ∨ a = b := by
  unfold stAdd
  split_ifs with h
  · constructor
    · exact Or.inl
    · rintro (ha | rfl)
      · exact ha
      · exact h
  · simp [List.mem_append]

lemma mem_stDel (a b : String) (l : List String) : a ∈ stDel l b ↔ a ∈ l ∧ a ≠ b := by
  unfold stDel
  simp [List.mem_filter]

/-- The states update of the prologue (`#load` lines 283-285). -/
def goStates (s : List String) : List String :=
  stAdd (stDel (stDel s "error") "waiting") "loading"

/-- The states update of the terminal continuation (`#load` lines 312-314). -/
def finStates (s : List String) (isErr : Bool) : List String :=
  stAdd (stDel (stDel s "loading") "streaming") (if isErr then "error" else "loaded")

lemma proGoElem_states (e : Elem) (u : String) :
    (proGoElem e u).states = goStates e.states := rfl

lemma goStates_closed : ∀ s ∈ reachableStates, goStates s ∈ reachableStates := by decide

lemma goStates_no_waiting : ∀ s ∈ reachableStates, "waiting" ∉ goStates s := by decide

lemma finStates_closed :
    ∀ s ∈ reachableStates, s ≠ ["waiting"] →
      ∀ b : Bool, finStates s b ∈ reachableStates := by decide

lemma finStates_no_waiting :
    ∀ s ∈ reachableStates, s ≠ ["waiting"] → ∀ b : Bool, "waiting" ∉ finStates s b := by decide

lemma tagCount_reachable : ∀ s ∈ reachableStates, tagCount s ≤ 1 := by decide

lemma waiting_shape : ∀ s ∈ reachableStates, "waiting" ∈ s → s = ["waiting"] := by decide

lemma abortCtrl_states (e : Elem) (i : Nat) (r : JsVal) :
    ((abortCtrl e i r).1).states = e.states := by
  unfold abortCtrl
  rcases h : e.ctrls.get? i with _ | c
  · rfl
  · dsimp only
    split <;> rfl

lemma applyRefresh_states (e : Elem) (h : String) :
    (applyRefresh e h).states = e.states := by
  unfold applyRefresh
  dsimp only
  split <;> rfl

lemma parseAndInject_states (e : Elem) (r : Resp) (c : String) :
    ((parseAndInject e r c).1).states = e.states := by
  unfold parseAndInject
  dsimp only
  split_ifs <;> simp [applyRefresh_states]

lemma afterLoadOnce_elem_states (m : Machine) (i att : Nat) (err : Option JsVal) :
    (machineAfterLoadOnce m i att err).elem.states = m.elem.states := by
  unfold machineAfterLoadOnce
  simp [abortCtrl_states]

lemma afterLoadOnce_pend (m : Machine) (i att : Nat) (err : Option JsVal) :
    (machineAfterLoadOnce m i att err).pend = m.pend.set i (Pend.atF att err) := rfl

lemma fetchRejected_states (m : Machine) (i att : Nat) (r : JsVal) :
    (machineFetchRejected m i att r).elem.states = m.elem.states :=
  afterLoadOnce_elem_states ..

lemma settle_states (m : Machine) (i : Nat) (r : Option Resp) :
    (machineSettle m i r).elem.states = m.elem.states := by
  unfold machineSettle
  split
  case _ att url sig heq =>
    split
    case _ c heq2 =>
      split_ifs with hc
      · exact fetchRejected_states ..
      · rcases r with _ | resp
        · exact fetchRejected_states ..
        · dsimp only
          split
          · rw [afterLoadOnce_elem_states]
            exact applyRefresh_states ..
          · rw [afterLoadOnce_elem_states]
            exact applyRefresh_states ..
          · rw [afterLoadOnce_elem_states]
            dsimp only
            rw [parseAndInject_states, applyRefresh_states]
    case _ => rfl
  case _ => rfl

lemma loadPrologue_shape (e : Elem) (ex : Option String) (href : String) :
    loadPrologue e ex href = (ProKind.noSrc, e, "") ∨
    loadPrologue e ex href = (ProKind.policy, e, resolvedLoadUrl e ex href) ∨
    loadPrologue e ex href = (ProKind.dedup, e, resolvedLoadUrl e ex href) ∨
    loadPrologue e ex href =
      (ProKind.go, proGoElem e (resolvedLoadUrl e ex href), resolvedLoadUrl e ex href) := by
  unfold loadPrologue
  split_ifs <;> simp

lemma inv_of_same (m m2 : Machine) (h : MInv m)
    (hs : m2.elem.states = m.elem.states) (hp : m2.pend = m.pend) : MInv m2 := by
  refine ⟨hs ▸ h.1, fun hw => ?_⟩
  rw [hp]
  exact h.2 (hs ▸ hw)

lemma inv_of_states_eq (m m2 : Machine) (h : MInv m)
    (hw : "waiting" ∉ m.elem.states) (hs : m2.elem.states = m.elem.states) : MInv m2 := by
  refine ⟨hs ▸ h.1, fun hw2 => ?_⟩
  exact absurd (hs ▸ hw2) hw

lemma no_waiting_of_pending (m : Machine) (h : MInv m) (i : Nat) (p : Pend)
    (hp : m.pend.get? i = some p) : "waiting" ∉ m.elem.states := by
  intro hw
  rw [h.2 hw] at hp
  cases i <;> exact Option.noConfusion hp

lemma inv_trigger (m : Machine) (ex : Option String) (h : MInv m) :
    MInv (machineTrigger m ex) := by
  rcases loadPrologue_shape m.elem ex m.pageHref with hk | hk | hk | hk
  · simp only [machineTrigger, hk]
    exact h
  · simp only [machineTrigger, hk]
    exact inv_of_same _ _ h rfl rfl
  · simp only [machineTrigger, hk]
    exact h
  · simp only [machineTrigger, hk]
    constructor
    · exact goStates_closed _ h.1
    · intro hw
      exact absurd hw (goStates_no_waiting _ h.1)

lemma runB_states (m : Machine) (i att : Nat) (url : String) :
    (machineRunB m i att url).elem.states = m.elem.states := by
  unfold machineRunB
  dsimp only
  split_ifs with h1 h2
  · rfl
  · exact fetchRejected_states ..
  · rfl

lemma stop_states (m : Machine) : (machineStop m).elem.states = m.elem.states := by
  unfold machineStop
  dsimp only
  rw [abortCtrl_states]

lemma inv_runF (m : Machine) (i att : Nat) (err : Option JsVal) (h : MInv m)
    (hp : m.pend.get? i = some (Pend.atF att err)) : MInv (machineRunF m i att err) := by
  have hw : "waiting" ∉ m.elem.states := no_waiting_of_pending m h i _ hp
  have hs : m.elem.states ≠ ["waiting"] := by
    intro he
    rw [he] at hw
    simp at hw
  constructor
  · exact finStates_closed _ h.1 hs err.isSome
  · intro hw2
    exact absurd hw2 (finStates_no_waiting _ h.1 hs err.isSome)

lemma inv_step (m : Machine) (c : Cmd) (h : MInv m) : MInv (step m c) := by
  cases c with
  | setSrc v =>
    exact inv_trigger _ _ ⟨h.1, h.2⟩
  | trig ex =>
    exact inv_trigger _ _ h
  | runTask i =>
    simp only [step]
    rcases hp : m.pend.get? i with _ | p
    · exact h
    rcases p with ⟨att, url⟩ | ⟨att, url, sig⟩ | ⟨att, err⟩ | att
    · exact inv_of_states_eq _ _ h (no_waiting_of_pending m h i _ hp) (runB_states ..)
    · exact h
    · exact inv_runF _ _ _ _ h hp
    · exact h
  | settle i r =>
    rcases hp : m.pend.get? i with _ | p
    · have he : machineSettle m i r = m := by
        unfold machineSettle
        rw [hp]
      show MInv (machineSettle m i r)
      rw [he]
      exact h
    · exact inv_of_states_eq _ _ h (no_waiting_of_pending m h i _ hp) (settle_states ..)
  | stop =>
    exact inv_of_same _ _ h (stop_states ..) rfl

lemma inv_run (m : Machine) (cs : List Cmd) (h : MInv m) : MInv (run m cs) := by
  induction cs generalizing m with
  | nil => exact h
  | cons c cs ih => exact ih _ (inv_step m c h)

lemma inv_mkMachine (href : String) (src accept insert : Option String)
    (allow : List String) : MInv (mkMachine href src accept insert allow) := by
  constructor
  · exact (by decide : (["waiting"] : List String) ∈ reachableStates)
  · intro _
    rfl

/-- C1: the claim states that for every sequence of loads triggered on one
element to distinct URLs without awaiting completion, only the
last-issued attempt's response processing may mutate the element's
children or its state tags, every superseded attempt's late continuation
being discarded first.  The code violates this: `#loadOnce` reads the
signal of whatever controller is current when it resumes
(`src/i-html.js` line 346), and `#load`'s `finally` aborts the current
controller (line 307) with no liveness check.  In the faithful event-loop
order for two back-to-back `src` assignments (`c1Trace`), both fetches are
issued on attempt 2's controller, attempt 1's response for `/a` is
inserted into the DOM by the superseded attempt (the `domInsert` by
attempt 1 occurs after attempt 2's `fetchIssued`), attempt 1's `finally`
aborts attempt 2's request (the `ctrlAborted 2` entry), attempt 1 then
mutates the state tags and dispatches `load`/`loadend`, and the element
ends holding the superseded attempt's content. -/
theorem claim_C1 :
    c1Trace.elem.children = [DomNode.fromDoc "A"] ∧
    c1Trace.elem.states = ["loaded"] ∧
    c1Trace.pend = [] ∧
    c1Trace.log = [Act.ctrlAborted 0 JsVal.abortException,
      Act.ctrlAborted 1 JsVal.abortException,
      Act.fetchIssued 1 "http://p/a" 2,
      Act.fetchIssued 2 "http://p/b" 2,
      Act.domInsert 1 [DomNode.fromDoc "A"],
      Act.ctrlAborted 2 JsVal.abortException,
      Act.dispatched 1 "load", Act.dispatched 1 "loadend",
      Act.dispatched 2 "load", Act.dispatched 2 "loadend"] := by
  decide

/-- C2, counterexample: the claim as stated says a `text/plain` response
under `accept="text/html"` fails with a negotiation error and no child
nodes change; on the code the negotiation passes (both capture groups are
`undefined`, so `ctParts && ctParts !== acceptParts` is falsy) and the
body is inserted as an inert span. -/
theorem claim_C2_counterexample :
    negotiate (acceptGetter (some "text/html")) "text/plain" =
      Negotiation.proceed "text/plain" ∧
    c2Trace.elem.children = [DomNode.textSpan "Hello"] ∧
    c2Trace.elem.states = ["loaded"] ∧
    c2Trace.log = [Act.ctrlAborted 0 JsVal.abortException,
      Act.fetchIssued 1 "http://p/a" 1,
      Act.domInsert 1 [DomNode.textSpan "Hello"],
      Act.ctrlAborted 1 JsVal.abortException,
      Act.dispatched 1 "load", Act.dispatched 1 "loadend"] := by
  decide

/-- C2, amended: a completed response fails negotiation exactly when the
accept value is not a wildcard and the content type carries a
structured-syntax prefix part (the `([^+]+\+)` capture, e.g. `atom+` in
`application/atom+xml`) that differs from the accept value's prefix part;
a content type without such a prefix never fails negotiation, so
`text/plain` under `accept="text/html"` proceeds and its body is inserted
as an inert text span. -/
theorem claim_C2 :
    (∀ (a c p : String), wildcardTest a = false → ctParts c = some p →
      acceptParts a ≠ some p → negotiate a c = Negotiation.mismatch a c) ∧
    (∀ (a c : String), ctParts c = none → negotiate a c ≠ Negotiation.mismatch a c) ∧
    negotiate (acceptGetter (some "text/html")) "text/plain" =
      Negotiation.proceed "text/plain" ∧
    c2Trace.elem.children = [DomNode.textSpan "Hello"] := by
  refine ⟨?_, ?_, by decide, by decide⟩
  · intro a c p h1 h2 h3
    unfold negotiate
    rw [if_pos]
    exact ⟨h1, by rw [h2]; exact decide_eq_true h3⟩
  · intro a c h
    unfold negotiate
    rw [if_neg]
    · rcases resolvedCt c with _ | r <;> simp
    · intro hc
      rw [h] at hc
      simp at hc

/-- C2, witness: a content type with a prefix part differing from the
accept value's (absent) prefix part is rejected by negotiation. -/
theorem claim_C2_witness :
    negotiate "application/xml" "application/atom+xml" =
      Negotiation.mismatch "application/xml" "application/atom+xml" :=
  claim_C2.1 "application/xml" "application/atom+xml" "atom+" (by decide) (by decide)
    (by decide)

/-- C3, counterexample: the claim says at most one of
{waiting, loading, streaming, loaded, error} is ever set.  The code never
deletes `loaded`, so after one completed load a second trigger leaves
both `loaded` and `loading` set simultaneously. -/
theorem claim_C3_counterexample :
    c3Trace.elem.states = ["loaded", "loading"] ∧
    "loaded" ∈ c3Trace.elem.states ∧ "loading" ∈ c3Trace.elem.states := by
  decide

/-- C3, amended: in the one-shot load lifecycle, at most one of the
transient tags {waiting, loading, streaming, error} is set at any point
(the `loaded` tag, once set by a completed attempt, is never removed and
may coexist with the tags of later attempts), and every load attempt that
proceeds past the no-op and de-duplication checks removes the `error`
(and `waiting`) tag and sets `loading` at its start. -/
theorem claim_C3 :
    (∀ (href : String) (src accept insert : Option String) (allow : List String)
      (cs : List Cmd),
      tagCount ((run (mkMachine href src accept insert allow) cs).elem.states) ≤ 1) ∧
    (∀ (e : Elem) (ex : Option String) (href : String) (e2 : Elem) (u : String),
      loadPrologue e ex href = (ProKind.go, e2, u) →
      "error" ∉ e2.states ∧ "waiting" ∉ e2.states ∧ "loading" ∈ e2.states) := by
  constructor
  · intro href src accept insert allow cs
    exact tagCount_reachable _
      (inv_run (mkMachine href src accept insert allow) cs
        (inv_mkMachine href src accept insert allow)).1
  · intro e ex href e2 u h
    rcases loadPrologue_shape e ex href with hk | hk | hk | hk <;> rw [hk] at h
    · simp at h
    · simp at h
    · simp at h
    · simp only [Prod.mk.injEq] at h
      obtain ⟨-, h2, -⟩ := h
      rw [← h2, proGoElem_states]
      unfold goStates
      refine ⟨?_, ?_, ?_⟩
      · rw [mem_stAdd, mem_stDel, mem_stDel]
        simp
      · rw [mem_stAdd, mem_stDel, mem_stDel]
        simp
      · rw [mem_stAdd]
        exact Or.inr rfl

/-- C3, witness: the amended start-of-attempt clause at a concrete
element. -/
theorem claim_C3_witness :
    "error" ∉ (proGoElem (mkElem (some "http://p/a") none none []) "http://p/a").states ∧
    "waiting" ∉ (proGoElem (mkElem (some "http://p/a") none none []) "http://p/a").states ∧
    "loading" ∈ (proGoElem (mkElem (some "http://p/a") none none []) "http://p/a").states :=
  claim_C3.2 (mkElem (some "http://p/a") none none []) none "http://p/"
    (proGoElem (mkElem (some "http://p/a") none none []) "http://p/a") "http://p/a"
    (by decide)

/-- C4, counterexample: the claim says a cross-origin load without the
`cross-origin` token yields a PolicyError surfaced via the element's
`error` event.  On the code the throw happens before the `try`/`finally`
that dispatches events (`src/i-html.js` line 276 against lines 291-317),
so no request is issued but also no `error` (or any) event is ever
dispatched, the state tags are untouched, and nothing remains pending
that could dispatch one later. -/
theorem claim_C4_counterexample :
    c4Trace.elem.states = ["waiting"] ∧
    c4Trace.pend = [] ∧
    c4Trace.log = [Act.asyncRejected (JsVal.jsError
      "i-html failed to load cross origin resource http://x/r without allow=cross-origin")] ∧
    c4Trace.elem.children = [] := by
  decide

/-- C4, amended: when the resolved URL's origin differs from the page
origin and the allow set lacks `cross-origin`, no network request is
issued and an `Error` is thrown synchronously from `#load` before the
`try`/`finally`, so it only rejects the internal (never-awaited) load
promise: the element state, children, pending work and event stream are
all unchanged, and in particular no `error` event is dispatched. -/
theorem claim_C4 :
    ∀ (m : Machine) (ex : Option String),
      ¬(ex.getD "" = "" ∧ m.elem.srcAttr = none) →
      "cross-origin" ∉ m.elem.allowSet →
      urlOrigin (resolvedLoadUrl m.elem ex m.pageHref) ≠ urlOrigin m.pageHref →
      machineTrigger m ex = { m with log := m.log ++ [Act.asyncRejected (JsVal.jsError
        ("i-html failed to load cross origin resource " ++
          resolvedLoadUrl m.elem ex m.pageHref ++ " without allow=cross-origin"))] } := by
  intro m ex h1 h2 h3
  have hp : loadPrologue m.elem ex m.pageHref =
      (ProKind.policy, m.elem, resolvedLoadUrl m.elem ex m.pageHref) := by
    unfold loadPrologue
    rw [if_neg h1, if_pos ⟨h2, h3⟩]
  simp only [machineTrigger, hp]

/-- C4, witness: the amended behaviour at a concrete cross-origin
element. -/
theorem claim_C4_witness :
    machineTrigger (mkMachine "http://p/" (some "http://x/r") none none []) none =
      { mkMachine "http://p/" (some "http://x/r") none none [] with
        log := (mkMachine "http://p/" (some "http://x/r") none none []).log ++
          [Act.asyncRejected (JsVal.jsError
            ("i-html failed to load cross origin resource " ++
              resolvedLoadUrl (mkMachine "http://p/" (some "http://x/r") none none []).elem
                none "http://p/" ++ " without allow=cross-origin"))] } :=
  claim_C4 (mkMachine "http://p/" (some "http://x/r") none none []) none (by decide)
    (by decide) (by decide)

/-- C5: triggering a load whose resolved URL equals the `src` expando of
the current non-cancelled controller is a no-op — the prologue exits at
the de-duplication check and the machine (so in particular the pending
request queue, the controllers and the action log) is left untouched —
while a trigger that reaches the guards with any other resolved URL
always proceeds: it aborts the previous attempt's controller and installs
a fresh, non-aborted controller tagged with the new URL. -/
theorem claim_C5 :
    (∀ (m : Machine) (ex : Option String),
      (loadPrologue m.elem ex m.pageHref).1 = ProKind.dedup → machineTrigger m ex = m) ∧
    (∀ (e : Elem) (ex : Option String) (href : String),
      ¬(ex.getD "" = "" ∧ e.srcAttr = none) →
      ("cross-origin" ∈ e.allowSet ∨
        urlOrigin (resolvedLoadUrl e ex href) = urlOrigin href) →
      (currentCtrl e).aborted = false →
      (currentCtrl e).srcTag = some (resolvedLoadUrl e ex href) →
      loadPrologue e ex href = (ProKind.dedup, e, resolvedLoadUrl e ex href)) ∧
    (∀ (e : Elem) (ex : Option String) (href : String),
      ¬(ex.getD "" = "" ∧ e.srcAttr = none) →
      ("cross-origin" ∈ e.allowSet ∨
        urlOrigin (resolvedLoadUrl e ex href) = urlOrigin href) →
      (currentCtrl e).srcTag ≠ some (resolvedLoadUrl e ex href) →
      e.cur < e.ctrls.length →
      loadPrologue e ex href =
        (ProKind.go, proGoElem e (resolvedLoadUrl e ex href),
          resolvedLoadUrl e ex href) ∧
      (proGoElem e (resolvedLoadUrl e ex href)).ctrls.get? e.cur =
        some (Controller.abortWith (currentCtrl e) JsVal.abortException) ∧
      currentCtrl (proGoElem e (resolvedLoadUrl e ex href)) =
        { srcTag := some (resolvedLoadUrl e ex href), aborted := false,
          reason := JsVal.undefined }) := by
  refine ⟨?_, ?_, ?_⟩
  · intro m ex h
    rcases loadPrologue_shape m.elem ex m.pageHref with hk | hk | hk | hk <;>
      rw [hk] at h
    · simp at h
    · simp at h
    · simp only [machineTrigger, hk]
    · simp at h
  · intro e ex href h1 h2 h3 h4
    have hcond : ¬("cross-origin" ∉ e.allowSet ∧
        urlOrigin (resolvedLoadUrl e ex href) ≠ urlOrigin href) := by
      rcases h2 with h2 | h2
      · exact fun hc => hc.1 h2
      · exact fun hc => hc.2 h2
    unfold loadPrologue
    rw [if_neg h1, if_neg hcond, if_pos ⟨h3, h4⟩]
  · intro e ex href h1 h2 h3 hcur
    have hcond : ¬("cross-origin" ∉ e.allowSet ∧
        urlOrigin (resolvedLoadUrl e ex href) ≠ urlOrigin href) := by
      rcases h2 with h2 | h2
      · exact fun hc => hc.1 h2
      · exact fun hc => hc.2 h2
    have hded : ¬((currentCtrl e).aborted = false ∧
        (currentCtrl e).srcTag = some (resolvedLoadUrl e ex href)) :=
      fun hc => h3 hc.2
    refine ⟨?_, ?_, ?_⟩
    · unfold loadPrologue
      rw [if_neg h1, if_neg hcond, if_neg hded]
    · show (e.ctrls.set e.cur (Controller.abortWith (currentCtrl e) JsVal.abortException) ++
        [({ srcTag := some (resolvedLoadUrl e ex href), aborted := false,
            reason := JsVal.undefined } : Controller)]).get? e.cur = _
      have hlen : e.cur < (e.ctrls.set e.cur
          (Controller.abortWith (currentCtrl e) JsVal.abortException)).length := by
        rw [List.length_set]
        exact hcur
      rw [List.get?_append hlen, List.get?_set_eq]
      rcases hg : e.ctrls.get? e.cur with _ | c
      · rw [List.get?_eq_none] at hg
        omega
      · rfl
    · show ((e.ctrls.set e.cur (Controller.abortWith (currentCtrl e) JsVal.abortException) ++
        [({ srcTag := some (resolvedLoadUrl e ex href), aborted := false,
            reason := JsVal.undefined } : Controller)]).get? e.ctrls.length).getD
        Controller.fresh = _
      have hlen2 : (e.ctrls.set e.cur
          (Controller.abortWith (currentCtrl e) JsVal.abortException)).length ≤
          e.ctrls.length := by
        rw [List.length_set]
      rw [List.get?_append_right hlen2, List.length_set]
      simp

/-- C5, witness: on `c5Machine` (one non-cancelled in-flight attempt for
`/a`), re-triggering `/a` is a machine no-op, and triggering `/b`
proceeds, aborting the previous controller and installing a fresh one
tagged `/b`. -/
theorem claim_C5_witness :
    machineTrigger c5Machine none = c5Machine ∧
    loadPrologue c5Machine.elem none "http://p/" =
      (ProKind.dedup, c5Machine.elem, resolvedLoadUrl c5Machine.elem none "http://p/") ∧
    (proGoElem c5Machine.elem
      (resolvedLoadUrl c5Machine.elem (some "http://p/b") "http://p/")).ctrls.get?
        c5Machine.elem.cur =
      some (Controller.abortWith (currentCtrl c5Machine.elem) JsVal.abortException) :=
  ⟨claim_C5.1 c5Machine none (by decide),
   claim_C5.2.1 c5Machine.elem none "http://p/" (by decide) (by decide) (by decide)
     (by decide),
   (claim_C5.2.2 c5Machine.elem (some "http://p/b") "http://p/" (by decide) (by decide)
     (by decide) (by decide)).2.1⟩

/-- C6: the claim states that every abort path (a superseding load, the
`--stop` command, disconnection) is swallowed and never surfaces as a
user-visible failure or an `error` state.  The code violates this for the
paths that abort with a custom reason: `--stop` calls `abort('stop')`
(`src/i-html.js` line 247), the fetch then rejects with the string
`'stop'`, whose `code` property is `undefined` and not
`DOMException.ABORT_ERR`, so `#loadOnce` rethrows it (line 352) and the
attempt terminates in the `error` state, dispatching an `error` event —
while an argument-less abort (the superseding-load path) rejects with an
`AbortError` whose `code` is `20` and is swallowed. -/
theorem claim_C6 :
    c6Trace.elem.states = ["error"] ∧
    c6Trace.log = [Act.ctrlAborted 0 JsVal.abortException,
      Act.fetchIssued 1 "http://p/a" 1,
      Act.ctrlAborted 1 (JsVal.jsStr "stop"),
      Act.dispatched 1 "error", Act.dispatched 1 "loadend",
      Act.asyncRejected (JsVal.jsStr "stop")] ∧
    loadOnceRejectErr (JsVal.jsStr "stop") = some (JsVal.jsStr "stop") ∧
    loadOnceRejectErr (JsVal.jsStr "disconnected") = some (JsVal.jsStr "disconnected") ∧
    loadOnceRejectErr JsVal.abortException = none := by
  decide

/-- C7: for an element with no `src` attribute, a trigger with no explicit
URL exits at the first guard of `#load`: the machine is completely
unchanged (no request, no controller change, no event), so the state tags
stay exactly as they were — `waiting` for a fresh element. -/
theorem claim_C7 :
    ∀ (m : Machine), m.elem.srcAttr = none →
      machineTrigger m none = m ∧
      (loadPrologue m.elem none m.pageHref).1 = ProKind.noSrc ∧
      (machineTrigger m none).elem.states = m.elem.states := by
  intro m h
  have hp : loadPrologue m.elem none m.pageHref = (ProKind.noSrc, m.elem, "") := by
    unfold loadPrologue
    rw [if_pos ⟨rfl, h⟩]
  have hm : machineTrigger m none = m := by
    simp only [machineTrigger, hp]
  exact ⟨hm, by rw [hp], by rw [hm]⟩

/-- C7, witness: the no-op at a concrete fresh element with no `src`. -/
theorem claim_C7_witness :
    machineTrigger (mkMachine "http://p/" none none none []) none =
      mkMachine "http://p/" none none none [] :=
  (claim_C7 (mkMachine "http://p/" none none none []) rfl).1

/-- C8, counterexample: the claim says `*` expands to the full token set
whether written via the property accessor or by mutating the attribute
directly.  Mutating the attribute directly runs only
`attributeChangedCallback`, whose parse has no `*` expansion: `*` is not
in `validAllow`, so it is dropped and the cached set is empty. -/
theorem claim_C8_counterexample :
    parseAllow "*" = [] ∧ setAllow "*" = validAllow ∧ validAllow ≠ [] := by
  decide

/-- C8, amended: for every value written to `allow`, the cached token set
holds exactly the space-separated tokens that belong to
{refresh, iframe, i-html, media, script, style, cross-origin}, unknown
tokens dropped silently; the single value `*` expands to all seven tokens
only via the property accessor — written directly as an attribute it is
treated as an unknown token and the set becomes empty. -/
theorem claim_C8 :
    (∀ (v : String), v ≠ "*" → setAllow v = parseAllow v) ∧
    setAllow "*" = validAllow ∧
    (∀ (v t : String), t ∈ parseAllow v ↔
      (t ∈ (splitOnChar ' ' v.toList).map String.mk ∧ t ∈ validAllow)) ∧
    parseAllow "*" = [] := by
  refine ⟨?_, by decide, ?_, by decide⟩
  · intro v h
    unfold setAllow
    rw [if_neg h]
  · intro v t
    unfold parseAllow
    simp [List.mem_filter]

/-- C8, witness: the per-path parses at concrete attribute values. -/
theorem claim_C8_witness :
    setAllow "refresh bogus" = parseAllow "refresh bogus" ∧
    ("script" ∈ parseAllow "script x" ↔
      ("script" ∈ (splitOnChar ' ' "script x".toList).map String.mk ∧
        "script" ∈ validAllow)) :=
  ⟨claim_C8.1 "refresh bogus" (by decide), claim_C8.2.2.1 "script x" "script"⟩

/-- C9: the claim says a response carrying `Refresh: <delay>[; url=<url>]`
with the `refresh` token schedules a follow-up load (and none is
scheduled without the token).  `#setupRefresh` itself behaves as claimed
(first two and last conjuncts, and a proceeding load prologue clears the
pending timer), but the full response pipeline does not: for a markup
response with no embedded meta-refresh directive, `#parseAndInject` calls
`#setupRefresh('')` (`src/i-html.js` line 386), which clears the timer
that the `Refresh` header had just scheduled before its range check can
fail, so `c9HtmlTrace` ends with no pending timer; only a `text/plain`
response (which skips the meta pass) keeps the header-scheduled timer. -/
theorem claim_C9 :
    setupRefresh ["refresh"] "2; url=/next" =
      { cleared := true, scheduled := some (2000, some "/next") } ∧
    setupRefresh [] "2; url=/next" = { cleared := false, scheduled := none } ∧
    setupRefresh ["refresh"] "9007199254740991; url=/next" =
      { cleared := true, scheduled := none } ∧
    (∀ (e : Elem) (u : String), (proGoElem e u).refreshTimer = none) ∧
    c9HtmlTrace.elem.refreshTimer = none ∧
    c9PlainTrace.elem.refreshTimer = some (2000, some "/next") := by
  refine ⟨by decide, by decide, by decide, fun e u => rfl, by decide, by decide⟩

/-- C10: the claim says each streaming message received after the
connection is open has its payload run through the parse/sanitize/insert
pipeline as `text/html`.  The handler's body reads `message.data`, but
the only bindings in scope are the listener parameter `e` and the
`#stream` closure (plus the module scope), none named `message`, so past
the open guard every delivery raises a `ReferenceError` and the payload
never reaches `#parseAndInject`; the spec-modelled intended handler shows
the claimed behaviour for contrast. -/
theorem claim_C10 :
    (∀ (d : String), streamMessageHandler true d = StreamMsgResult.refError "message") ∧
    "message" ∉ streamHandlerScope ∧
    (∀ (d : String), streamMessageHandler false d = StreamMsgResult.ignored) ∧
    (∀ (p : String), intendedStreamMessage true p = some (p, "text/html")) := by
  exact ⟨fun d => rfl, by decide, fun d => rfl, fun p => rfl⟩
